import Mathlib

/-!
Verification development for the FinDeck backend (`src/api/groq_client.py`,
`src/api/input_api/endpoints.py`, `src/api/main.py`).

Python strings are modelled as `List Char`, byte buffers as `List Nat`
(each entry a byte value).  Module-level mutable state (the in-memory
`csv_storage` dict and `next_id` counter used in the Vercel deployment
mode) is modelled by explicit state passing: each handler takes the
storage state and returns the new state together with either a response
or an HTTP error value.  Fallible Python operations (`bytes.decode`,
`csv.reader`, raised `HTTPException`s) are modelled with `Option` /
`Except`.
-/

/-- Python's substring test `sub in s` (`str.__contains__`): true iff
`sub` occurs contiguously in `s`; the empty string occurs in every
string. -/
def pyContains : List Char → List Char → Bool
  | [], sub => sub.isEmpty
  | s@(_ :: t), sub => sub.isPrefixOf s || pyContains t sub

/-- Whitespace as recognised by Python's `str.strip()` for the
characters that can occur here: ASCII whitespace (tab through carriage
return, space), the C1 separators 0x1c–0x1f, NEL (0x85) and NBSP
(0xa0).  (The full Unicode table also has higher code points, which
never arise in this development.) -/
def pyIsSpace (c : Char) : Bool :=
  c.toNat = 32 || (9 ≤ c.toNat && c.toNat ≤ 13) || (28 ≤ c.toNat && c.toNat ≤ 31)
    || c.toNat = 133 || c.toNat = 160

/-- Python's `str.strip()`: drop leading and trailing whitespace. -/
def pyStrip (s : List Char) : List Char :=
  ((s.dropWhile pyIsSpace).reverse.dropWhile pyIsSpace).reverse

/-- The markdown fence marker, the separator of the `split` call in
`groq_client.py` line 63. -/
def fence : List Char := "```".toList

/-- Reattach a character in front of the first part of a split result
(helper for `splitFence`). -/
def consHead (c : Char) : List (List Char) → List (List Char)
  | [] => [[c]]
  | p :: ps => (c :: p) :: ps

/-- Python's `csv_content.split("\x60\x60\x60")` (`groq_client.py` line
63): split on each non-overlapping occurrence of the three-backtick
fence, scanning left to right. -/
def splitFence : List Char → List (List Char)
  | [] => [[]]
  | c :: rest =>
    if (c :: rest).take 3 = fence then [] :: splitFence (rest.drop 2)
    else consHead c (splitFence rest)
termination_by s => s.length
decreasing_by
  · simp only [List.length_cons]
    have : (rest.drop 2).length ≤ rest.length := by
      rw [List.length_drop]
      omega
    omega
  · simp

/-- Strict UTF-8 decoding, as performed by Python's
`bytes.decode("utf-8")` (`endpoints.py` line 47): rejects stray
continuation bytes, truncated or overlong sequences, surrogate code
points and code points above U+10FFFF. -/
def utf8Decode : List Nat → Option (List Char)
  | [] => some []
  | b :: rest =>
    if b ≤ 0x7F then
      (utf8Decode rest).map (fun cs => Char.ofNat b :: cs)
    else if 0xC2 ≤ b ∧ b ≤ 0xDF then
      match rest with
      | c1 :: rest2 =>
        if 0x80 ≤ c1 ∧ c1 ≤ 0xBF then
          (utf8Decode rest2).map (fun cs => Char.ofNat ((b - 0xC0) * 64 + (c1 - 0x80)) :: cs)
        else none
      | [] => none
    else if 0xE0 ≤ b ∧ b ≤ 0xEF then
      match rest with
      | c1 :: c2 :: rest2 =>
        let lo1 := if b = 0xE0 then 0xA0 else 0x80
        let hi1 := if b = 0xED then 0x9F else 0xBF
        if (lo1 ≤ c1 ∧ c1 ≤ hi1) ∧ (0x80 ≤ c2 ∧ c2 ≤ 0xBF) then
          (utf8Decode rest2).map
            (fun cs => Char.ofNat ((b - 0xE0) * 4096 + (c1 - 0x80) * 64 + (c2 - 0x80)) :: cs)
        else none
      | _ => none
    else if 0xF0 ≤ b ∧ b ≤ 0xF4 then
      match rest with
      | c1 :: c2 :: c3 :: rest2 =>
        let lo1 := if b = 0xF0 then 0x90 else 0x80
        let hi1 := if b = 0xF4 then 0x8F else 0xBF
        if (lo1 ≤ c1 ∧ c1 ≤ hi1) ∧ (0x80 ≤ c2 ∧ c2 ≤ 0xBF) ∧ (0x80 ≤ c3 ∧ c3 ≤ 0xBF) then
          (utf8Decode rest2).map
            (fun cs =>
              Char.ofNat ((b - 0xF0) * 262144 + (c1 - 0x80) * 4096 + (c2 - 0x80) * 64
                + (c3 - 0x80)) :: cs)
        else none
      | _ => none
    else none

/-- Input symbols of the `_csv` tokenizer: a character of the current
line, or the end-of-line marker the reader appends after processing
each fetched line. -/
inductive CsvChar
  | ch (c : Char)
  | eol
deriving DecidableEq

/-- Parser states of the stdlib `_csv` tokenizer (default `excel`
dialect, `strict=False`); `eatCrnl` is the state entered after a bare
`\r` or `\n` ends an unquoted field, whose only legal successors are
further newline characters or the end of the line. -/
inductive CsvPos
  | startRecord
  | startField
  | inField
  | inQuoted
  | quoteInQuoted
  | eatCrnl
deriving DecidableEq

/-- The symbol stream the `csv` reader sees for a given text:
`io.StringIO(s)` (default `newline = "\n"`, no translation) yields
lines split after each `\n`, and the reader feeds every character of a
line followed by one end-of-line marker.  An empty text yields no
lines at all. -/
def csvStream : List Char → List CsvChar
  | [] => []
  | c :: rest =>
    if c = '\n' then .ch c :: .eol :: csvStream rest
    else
      match rest with
      | [] => [.ch c, .eol]
      | _ :: _ => .ch c :: csvStream rest

/-- The `_csv` tokenizer (default `excel` dialect: delimiter `,`,
quote `"`, doubled-quote escaping, `strict=False`) run for acceptance:
`none` on the reader's "new-line character seen in unquoted field"
error (a non-newline character in the `eatCrnl` state), otherwise the
list of field lengths produced.  `cur` is the length of the field
being built; at the end of input a pending field is saved without
error (`strict=False`), and NUL characters are ordinary data (Python
3.11+). -/
def csvRun : CsvPos → Nat → List CsvChar → Option (List Nat)
  | _, cur, [] => some [cur]
  | .startRecord, cur, x :: rest =>
    match x with
    | .eol => csvRun .startRecord cur rest
    | .ch c =>
      if c = '\n' ∨ c = '\r' then csvRun .eatCrnl cur rest
      else if c = '"' then csvRun .inQuoted cur rest
      else if c = ',' then (csvRun .startField 0 rest).map (fun l => cur :: l)
      else csvRun .inField (cur + 1) rest
  | .startField, cur, x :: rest =>
    match x with
    | .eol => (csvRun .startRecord 0 rest).map (fun l => cur :: l)
    | .ch c =>
      if c = '\n' ∨ c = '\r' then (csvRun .eatCrnl 0 rest).map (fun l => cur :: l)
      else if c = '"' then csvRun .inQuoted cur rest
      else if c = ',' then (csvRun .startField 0 rest).map (fun l => cur :: l)
      else csvRun .inField (cur + 1) rest
  | .inField, cur, x :: rest =>
    match x with
    | .eol => (csvRun .startRecord 0 rest).map (fun l => cur :: l)
    | .ch c =>
      if c = '\n' ∨ c = '\r' then (csvRun .eatCrnl 0 rest).map (fun l => cur :: l)
      else if c = ',' then (csvRun .startField 0 rest).map (fun l => cur :: l)
      else csvRun .inField (cur + 1) rest
  | .inQuoted, cur, x :: rest =>
    match x with
    | .eol => csvRun .inQuoted cur rest
    | .ch c =>
      if c = '"' then csvRun .quoteInQuoted cur rest
      else csvRun .inQuoted (cur + 1) rest
  | .quoteInQuoted, cur, x :: rest =>
    match x with
    | .eol => (csvRun .startRecord 0 rest).map (fun l => cur :: l)
    | .ch c =>
      if c = '"' then csvRun .inQuoted (cur + 1) rest
      else if c = ',' then (csvRun .startField 0 rest).map (fun l => cur :: l)
      else if c = '\n' ∨ c = '\r' then (csvRun .eatCrnl 0 rest).map (fun l => cur :: l)
      else csvRun .inField (cur + 1) rest
  | .eatCrnl, cur, x :: rest =>
    match x with
    | .eol => csvRun .startRecord 0 rest
    | .ch c =>
      if c = '\n' ∨ c = '\r' then csvRun .eatCrnl cur rest
      else none

/-- Whether `list(csv.reader(io.StringIO(s)))` (`endpoints.py` lines
50–51) succeeds: the tokenizer must not hit the "new-line character
seen in unquoted field" error (bare `\r` followed by a non-newline
character in an unquoted field), and every field must stay within the
default `field_size_limit` of 131072 characters. -/
def csvValidate (s : List Char) : Bool :=
  match csvRun .startRecord 0 (csvStream s) with
  | none => false
  | some lens => lens.all (fun n => n ≤ 131072)

/-- Outcome of the outbound Groq chat-completion call in
`process_image_bytes` (`groq_client.py` lines 50–58): either the API
returned and the first completion's text is `completion`, or some
transport/API exception with message `msg` was raised. -/
inductive ApiOutcome
  | success (completion : List Char)
  | failure (msg : List Char)

/-- The fixed error string of `groq_client.py` line 71. -/
def noCsvError : List Char :=
  "Error: Could not extract CSV data from the image".toList

/-- The prefix of the fallback string of `groq_client.py` line 78
(an f-string appending the exception message). -/
def errPre : List Char := "Error: ".toList

/-- The error-marker prefix callers must inspect for. -/
def errMarker : List Char := "Error:".toList

/-- The predicate of the part-selection loop, `groq_client.py` line 65:
`"csv" not in part and "," in part and "\n" in part`. -/
def goodPart (part : List Char) : Bool :=
  !(pyContains part ("csv".toList)) && pyContains part [','] && pyContains part ['\n']

/-- The markdown-fence cleanup of `groq_client.py` lines 61–67: if the
completion contains a triple-backtick fence, split on the fence
markers and replace the content by the stripped first part satisfying
`goodPart` (the `for`/`break` loop); if no part matches, or there is
no fence, the content is left unchanged. -/
def cleanupContent (csv_content : List Char) : List Char :=
  if pyContains csv_content fence then
    match (splitFence csv_content).find? goodPart with
    | some part => pyStrip part
    | none => csv_content
  else csv_content

/-- `GroqClient.process_image_bytes` (`groq_client.py` lines 20–78),
with the outbound call abstracted into `outcome`.  On an exception the
`except` block returns the error-marked message; otherwise the
completion text is cleaned up, and if the result is empty or has no
comma the fixed error string is returned (lines 70–71). -/
def process_image_bytes (outcome : ApiOutcome) : List Char :=
  match outcome with
  | .failure msg => errPre ++ msg
  | .success completion =>
    let csv_content := cleanupContent completion
    if csv_content.isEmpty || !(pyContains csv_content [',']) then noCsvError
    else csv_content

/-- The message of the `ValueError` raised by `GroqClient.__init__`
(`groq_client.py` line 14). -/
def keyErrorMsg : List Char := "GROQ_API_KEY environment variable not set".toList

/-- `GroqClient.__init__` (`groq_client.py` lines 8–18): reads
`GROQ_API_KEY` from the environment (modelled as `env_key`; `None` or
the empty string are both falsy) and raises a `ValueError` when it is
absent. -/
def groqClientInit (env_key : Option (List Char)) : Except (List Char) Unit :=
  match env_key with
  | none => .error keyErrorMsg
  | some k => if k.isEmpty then .error keyErrorMsg else .ok ()

/-- A record of the in-memory `csv_storage` dict (`endpoints.py` lines
58–63): the value stored under a key. -/
structure CsvRecord where
  id : Nat
  filename : List Char
  content : List Char
  source_type : List Char
deriving DecidableEq

/-- A `CSVResponse` payload: the `{id, filename, source_type}` dict the
handlers return. -/
structure CSVResponse where
  id : Nat
  filename : List Char
  source_type : List Char
deriving DecidableEq

/-- An `HTTPException` as raised by the handlers: status code and
detail text. -/
structure HttpError where
  status : Nat
  detail : List Char
deriving DecidableEq

/-- The module-level mutable state of `endpoints.py` in the Vercel
(volatile, in-memory) mode: the `csv_storage` dict — an
insertion-ordered map from integer id to record, modelled as an
association list in insertion order — and the `next_id` counter. -/
structure Storage where
  csv_storage : List (Nat × CsvRecord)
  next_id : Nat
deriving DecidableEq

/-- The initial module state (`endpoints.py` lines 17–18):
`csv_storage = {}` and `next_id = 1`. -/
def initStorage : Storage := ⟨[], 1⟩

/-- Python dict membership/indexing `csv_storage[k]`. -/
def dictLookup (m : List (Nat × CsvRecord)) (k : Nat) : Option CsvRecord :=
  match m.find? (fun p => p.1 == k) with
  | none => none
  | some p => some p.2

/-- Python dict assignment `csv_storage[k] = v`: overwrite in place if
the key exists, else append (dicts preserve insertion order). -/
def dictInsert (m : List (Nat × CsvRecord)) (k : Nat) (v : CsvRecord) :
    List (Nat × CsvRecord) :=
  if (m.find? (fun p => p.1 == k)).isSome then
    m.map (fun p => if p.1 == k then (k, v) else p)
  else m ++ [(k, v)]

/-- Detail prefix of the 400 response of `upload_csv` (`endpoints.py`
line 89; the full f-string appends the exception message). -/
def invalidCsvDetail : List Char := "Invalid CSV file: ".toList

/-- Detail of the 400 response of `upload_image` (`endpoints.py` line
107). -/
def failedExtractDetail : List Char :=
  "Failed to extract CSV data from the image".toList

/-- Detail prefix of the 500 response of `upload_image` (`endpoints.py`
line 151; the full f-string appends the exception message). -/
def processingErrorDetail : List Char := "Error processing image: ".toList

/-- Detail of the 404 responses (`endpoints.py` lines 160, 185). -/
def notFoundDetail : List Char := "CSV data not found".toList

/-- The `source_type` tag of directly-uploaded CSV records. -/
def sourceDirect : List Char := "direct_upload".toList

/-- The `source_type` tag of image-derived records. -/
def sourceImage : List Char := "image_conversion".toList

/-- The `_extracted.csv` suffix appended to image filenames
(`endpoints.py` line 115). -/
def extractedSuffix : List Char := "_extracted.csv".toList

/-- `upload_csv` (`endpoints.py` lines 38–89), Vercel (in-memory)
branch: decode the uploaded bytes as UTF-8 and validate with the `csv`
reader — any failure is caught and mapped to a 400 before any state
change; on success store the decoded text under the current `next_id`
with `source_type = "direct_upload"`, increment the counter and return
the response.  The post-state is returned in both cases. -/
def upload_csv (st : Storage) (filename : List Char) (contents : List Nat) :
    Storage × Except HttpError CSVResponse :=
  match utf8Decode contents with
  | none => (st, .error ⟨400, invalidCsvDetail⟩)
  | some csv_content =>
    if csvValidate csv_content then
      let current_id := st.next_id
      let stNew : Storage :=
        ⟨dictInsert st.csv_storage current_id
          ⟨current_id, filename, csv_content, sourceDirect⟩, current_id + 1⟩
      (stNew, .ok ⟨current_id, filename, sourceDirect⟩)
    else (st, .error ⟨400, invalidCsvDetail⟩)

/-- `upload_image` (`endpoints.py` lines 91–152), Vercel (in-memory)
branch: construct a `GroqClient` (its `ValueError` on a missing key is
caught by the generic `except` and mapped to a 500), call
`process_image_bytes`, raise a 400 if the returned text is falsy
(empty), and otherwise store it under a fresh id with
`source_type = "image_conversion"` and the derived filename. -/
def upload_image (st : Storage) (image_filename : List Char)
    (env_key : Option (List Char)) (outcome : ApiOutcome) :
    Storage × Except HttpError CSVResponse :=
  match groqClientInit env_key with
  | .error _ => (st, .error ⟨500, processingErrorDetail⟩)
  | .ok _ =>
    let csv_data_content := process_image_bytes outcome
    if csv_data_content.isEmpty then (st, .error ⟨400, failedExtractDetail⟩)
    else
      let current_id := st.next_id
      let filename := image_filename ++ extractedSuffix
      let stNew : Storage :=
        ⟨dictInsert st.csv_storage current_id
          ⟨current_id, filename, csv_data_content, sourceImage⟩, current_id + 1⟩
      (stNew, .ok ⟨current_id, filename, sourceImage⟩)

/-- `get_csv_info` (`endpoints.py` lines 154–167), Vercel branch: 404
when the id is absent, else the metadata of the stored record.  A pure
read: the storage state is not altered. -/
def get_csv_info (st : Storage) (csv_id : Nat) : Except HttpError CSVResponse :=
  match dictLookup st.csv_storage csv_id with
  | none => .error ⟨404, notFoundDetail⟩
  | some data => .ok ⟨data.id, data.filename, data.source_type⟩

/-- `get_csv_content` (`endpoints.py` lines 179–187), Vercel branch:
404 when the id is absent, else the stored content string.  A pure
read. -/
def get_csv_content (st : Storage) (csv_id : Nat) : Except HttpError (List Char) :=
  match dictLookup st.csv_storage csv_id with
  | none => .error ⟨404, notFoundDetail⟩
  | some data => .ok data.content

/-- `list_all_csvs` (`endpoints.py` lines 195–203), Vercel branch: the
metadata of every stored record, in the dict's insertion order. -/
def list_all_csvs (st : Storage) : List CSVResponse :=
  st.csv_storage.map (fun p => ⟨p.2.id, p.2.filename, p.2.source_type⟩)

/-- A sequence of `upload_csv` requests, threading the module state. -/
def uploadMany (st : Storage) : List (List Char × List Nat) → Storage
  | [] => st
  | (f, b) :: rest => uploadMany (upload_csv st f b).1 rest

/-- A well-formed upload input: the bytes decode as UTF-8 and the
decoded text passes the `csv` validation (so `upload_csv` succeeds). -/
def validInput (x : List Char × List Nat) : Prop :=
  (utf8Decode x.2).isSome ∧ csvValidate ((utf8Decode x.2).getD []) = true

instance : DecidablePred validInput := fun x => by
  unfold validInput
  infer_instance

/-- The invariant of the volatile store: every key in `csv_storage` is
below the `next_id` counter (ids were handed out by the counter). -/
def wfStorage (st : Storage) : Prop :=
  ∀ p ∈ st.csv_storage, p.1 < st.next_id

/-- The backtick character (written via its code point). -/
def btick : Char := Char.ofNat 96

theorem fence_eq : fence = [btick, btick, btick] := by decide

theorem pyContains_nil (s : List Char) : pyContains s [] = true := by
  cases s with
  | nil => rfl
  | cons c t => simp [pyContains, List.isPrefixOf]

theorem pyContains_singleton (s : List Char) (c : Char) :
    pyContains s [c] = true ↔ c ∈ s := by
  induction s with
  | nil => simp [pyContains]
  | cons a t ih =>
    simp only [pyContains, List.isPrefixOf, Bool.or_eq_true, List.mem_cons, ih,
      Bool.and_eq_true, beq_iff_eq]
    constructor
    · rintro (⟨h, -⟩ | h)
      · exact Or.inl h
      · exact Or.inr h
    · rintro (h | h)
      · exact Or.inl ⟨h, trivial⟩
      · exact Or.inr h

theorem pyContains_of_prefix (sub t : List Char) : pyContains (sub ++ t) sub = true := by
  cases sub with
  | nil => simpa using pyContains_nil t
  | cons c s =>
    show pyContains ((c :: s) ++ t) (c :: s) = true
    have hpre : (c :: s).isPrefixOf ((c :: s) ++ t) = true := by
      rw [List.isPrefixOf_iff_prefix]
      exact List.prefix_append _ _
    simp [pyContains, hpre]

theorem mem_dropWhile_of_not (p : Char → Bool) (c : Char) (l : List Char)
    (h : c ∈ l) (hc : p c = false) : c ∈ l.dropWhile p := by
  induction l with
  | nil => cases h
  | cons a t ih =>
    by_cases ha : p a = true
    · rw [List.dropWhile_cons_of_pos ha]
      rcases List.mem_cons.1 h with h1 | h1
      · subst h1
        rw [hc] at ha
        cases ha
      · exact ih h1
    · rw [List.dropWhile_cons_of_neg ha]
      exact h

theorem mem_pyStrip (c : Char) (l : List Char) (h : c ∈ l)
    (hc : pyIsSpace c = false) : c ∈ pyStrip l := by
  unfold pyStrip
  rw [List.mem_reverse]
  apply mem_dropWhile_of_not _ _ _ _ hc
  rw [List.mem_reverse]
  exact mem_dropWhile_of_not _ _ _ h hc

theorem splitFence_nil : splitFence [] = [[]] := by
  simp [splitFence]

theorem splitFence_fence_cons (t : List Char) :
    splitFence (fence ++ t) = [] :: splitFence t := by
  rw [fence_eq]
  show splitFence (btick :: btick :: btick :: t) = [] :: splitFence t
  rw [splitFence]
  have hc : (btick :: btick :: btick :: t).take 3 = fence := by
    rw [fence_eq]
    rfl
  rw [if_pos hc]
  rfl

theorem splitFence_cons_other (c : Char) (rest : List Char) (hc : c ≠ btick) :
    splitFence (c :: rest) = consHead c (splitFence rest) := by
  rw [splitFence]
  rw [if_neg]
  intro h
  rw [fence_eq] at h
  have ht : (c :: rest).take 3 = c :: rest.take 2 := rfl
  rw [ht] at h
  injection h with h1 _
  exact hc h1

theorem splitFence_append_fence (body : List Char) (t : List Char) (hb : btick ∉ body) :
    splitFence (body ++ fence ++ t) = body :: splitFence t := by
  induction body with
  | nil => simpa using splitFence_fence_cons t
  | cons c bodyT ih =>
    have hc : c ≠ btick := fun h => hb (h ▸ List.mem_cons_self c bodyT)
    have hb2 : btick ∉ bodyT := fun h => hb (List.mem_cons_of_mem c h)
    show splitFence (c :: (bodyT ++ fence ++ t)) = (c :: bodyT) :: splitFence t
    rw [splitFence_cons_other c _ hc, ih hb2]
    rfl

theorem splitFence_wrapped (body : List Char) (hb : btick ∉ body) :
    splitFence (fence ++ body ++ fence) = [[], body, []] := by
  have h1 : fence ++ body ++ fence = fence ++ (body ++ fence ++ []) := by simp
  rw [h1, splitFence_fence_cons, splitFence_append_fence body [] hb, splitFence_nil]

theorem find?_key_eq_none (m : List (Nat × CsvRecord)) (k : Nat)
    (h : ∀ p ∈ m, p.1 < k) : m.find? (fun p => p.1 == k) = none := by
  induction m with
  | nil => rfl
  | cons a t ih =>
    have ha : ¬ ((fun p : Nat × CsvRecord => p.1 == k) a = true) := by
      have := h a (List.mem_cons_self a t)
      simp only [beq_iff_eq]
      omega
    have step : List.find? (fun p => p.1 == k) (a :: t) =
        List.find? (fun p => p.1 == k) t :=
      List.find?_cons_of_neg t ha
    rw [step]
    exact ih (fun p hp => h p (List.mem_cons_of_mem a hp))

theorem dictLookup_none (m : List (Nat × CsvRecord)) (k : Nat)
    (h : ∀ p ∈ m, p.1 < k) : dictLookup m k = none := by
  unfold dictLookup
  rw [find?_key_eq_none m k h]

theorem dictInsert_fresh (m : List (Nat × CsvRecord)) (k : Nat) (v : CsvRecord)
    (h : ∀ p ∈ m, p.1 < k) : dictInsert m k v = m ++ [(k, v)] := by
  unfold dictInsert
  rw [find?_key_eq_none m k h]
  rfl

theorem dictLookup_append_self (m : List (Nat × CsvRecord)) (k : Nat) (v : CsvRecord)
    (h : ∀ p ∈ m, p.1 < k) : dictLookup (m ++ [(k, v)]) k = some v := by
  unfold dictLookup
  rw [List.find?_append, find?_key_eq_none m k h]
  simp [List.find?]

theorem upload_csv_ok (st : Storage) (f : List Char) (b : List Nat) (t : List Char)
    (hwf : wfStorage st) (hd : utf8Decode b = some t) (hv : csvValidate t = true) :
    upload_csv st f b =
      (⟨st.csv_storage ++ [(st.next_id, ⟨st.next_id, f, t, sourceDirect⟩)], st.next_id + 1⟩,
        .ok ⟨st.next_id, f, sourceDirect⟩) := by
  unfold upload_csv
  rw [hd]
  simp only [hv, if_true]
  rw [dictInsert_fresh _ _ _ hwf]

theorem upload_csv_bad_decode (st : Storage) (f : List Char) (b : List Nat)
    (hd : utf8Decode b = none) :
    upload_csv st f b = (st, .error ⟨400, invalidCsvDetail⟩) := by
  unfold upload_csv
  rw [hd]

theorem wfStorage_upload (st : Storage) (f : List Char) (b : List Nat)
    (hwf : wfStorage st) : wfStorage (upload_csv st f b).1 := by
  unfold upload_csv
  cases hd : utf8Decode b with
  | none => exact hwf
  | some t =>
    by_cases hv : csvValidate t = true
    · simp only [hv, if_true]
      unfold wfStorage
      intro p hp
      simp only at hp
      rw [dictInsert_fresh _ _ _ hwf] at hp
      rcases List.mem_append.1 hp with h1 | h1
      · exact Nat.lt_succ_of_lt (hwf p h1)
      · have : p = (st.next_id, ⟨st.next_id, f, t, sourceDirect⟩) := by simpa using h1
        rw [this]
        exact Nat.lt_succ_self _
    · simp only [hv, if_false]
      exact hwf

/-- The records a run of successful `upload_csv` requests appends,
starting from counter value `k`. -/
def mkRecords (k : Nat) : List (List Char × List Nat) → List (Nat × CsvRecord)
  | [] => []
  | x :: rest =>
    (k, ⟨k, x.1, (utf8Decode x.2).getD [], sourceDirect⟩) :: mkRecords (k + 1) rest

theorem uploadMany_spec (inputs : List (List Char × List Nat)) :
    ∀ st : Storage, wfStorage st → (∀ x ∈ inputs, validInput x) →
    (uploadMany st inputs).csv_storage = st.csv_storage ++ mkRecords st.next_id inputs ∧
    (uploadMany st inputs).next_id = st.next_id + inputs.length := by
  induction inputs with
  | nil =>
    intro st _ _
    simp [uploadMany, mkRecords]
  | cons x rest ih =>
    obtain ⟨f, b⟩ := x
    intro st hwf hall
    obtain ⟨hsome, hval⟩ := hall (f, b) (List.mem_cons_self _ _)
    obtain ⟨t, hd⟩ := Option.isSome_iff_exists.1 hsome
    have hval2 : csvValidate t = true := by
      rw [hd] at hval
      simpa using hval
    have hup := upload_csv_ok st f b t hwf hd hval2
    have hwf1 : wfStorage (upload_csv st f b).1 := wfStorage_upload st f b hwf
    have hall2 : ∀ y ∈ rest, validInput y := fun y hy => hall y (List.mem_cons_of_mem _ hy)
    have hih := ih (upload_csv st f b).1 hwf1 hall2
    have hrec : mkRecords st.next_id ((f, b) :: rest) =
        (st.next_id, ⟨st.next_id, f, t, sourceDirect⟩) :: mkRecords (st.next_id + 1) rest := by
      simp [mkRecords, hd]
    have hstep : uploadMany st ((f, b) :: rest) = uploadMany (upload_csv st f b).1 rest := rfl
    have hs1 : (upload_csv st f b).1.csv_storage =
        st.csv_storage ++ [(st.next_id, ⟨st.next_id, f, t, sourceDirect⟩)] := by
      rw [hup]
    have hs2 : (upload_csv st f b).1.next_id = st.next_id + 1 := by
      rw [hup]
    obtain ⟨h1, h2⟩ := hih
    rw [hs1, hs2] at h1
    rw [hs2] at h2
    constructor
    · rw [hstep, h1, hrec]
      simp
    · rw [hstep, h2]
      simp only [List.length_cons]
      omega

theorem mkRecords_ids (inputs : List (List Char × List Nat)) :
    ∀ k, (mkRecords k inputs).map (fun p => p.2.id) = List.range' k inputs.length := by
  induction inputs with
  | nil => intro k; rfl
  | cons x rest ih =>
    intro k
    show k :: (mkRecords (k + 1) rest).map (fun p => p.2.id) = List.range' k (rest.length + 1)
    rw [ih (k + 1)]
    rfl

theorem mkRecords_filenames (inputs : List (List Char × List Nat)) :
    ∀ k, (mkRecords k inputs).map (fun p => p.2.filename) = inputs.map (fun x => x.1) := by
  induction inputs with
  | nil => intro k; rfl
  | cons x rest ih =>
    intro k
    show x.1 :: (mkRecords (k + 1) rest).map (fun p => p.2.filename) = x.1 :: rest.map (fun y => y.1)
    rw [ih (k + 1)]

theorem mkRecords_source (inputs : List (List Char × List Nat)) :
    ∀ k, ∀ p ∈ mkRecords k inputs, p.2.source_type = sourceDirect := by
  induction inputs with
  | nil =>
    intro k p hp
    exact absurd hp (List.not_mem_nil p)
  | cons x rest ih =>
    intro k p hp
    rcases List.mem_cons.1 hp with h1 | h1
    · rw [h1]
    · exact ih (k + 1) p h1

theorem list_all_ids (st : Storage) :
    (list_all_csvs st).map (fun r => r.id) = st.csv_storage.map (fun p => p.2.id) := by
  unfold list_all_csvs
  rw [List.map_map]
  rfl

theorem list_all_filenames (st : Storage) :
    (list_all_csvs st).map (fun r => r.filename) = st.csv_storage.map (fun p => p.2.filename) := by
  unfold list_all_csvs
  rw [List.map_map]
  rfl

theorem wfStorage_init : wfStorage initStorage := by
  unfold wfStorage initStorage
  intro p hp
  exact absurd hp (List.not_mem_nil p)

theorem get_csv_content_of_lookup (st : Storage) (k : Nat) (v : CsvRecord)
    (h : dictLookup st.csv_storage k = some v) : get_csv_content st k = .ok v.content := by
  unfold get_csv_content
  rw [h]

/-- C1: the claim states that an error-marked extraction result makes
`upload_image` yield a client error and create no record.  The code
does NOT do this: the handler only checks `if not csv_data_content`
(emptiness), while `process_image_bytes` signals failure with the
non-empty `"Error: ..."` string and never returns an empty string — so
for a completion with no comma the error-marked string is stored as a
record with `source_type = "image_conversion"` and a success response
is returned.  This theorem evaluates the handler at such a failing
input: the extraction result is the error string, which carries the
error-marker prefix, yet the request succeeds and a record holding the
error string is created. -/
theorem c1_error_marked_extraction_is_stored :
    process_image_bytes (.success ("no table present".toList)) = noCsvError ∧
    errMarker.isPrefixOf noCsvError = true ∧
    upload_image initStorage ("pic.png".toList) (some ("k".toList))
        (.success ("no table present".toList)) =
      (⟨[(1, ⟨1, "pic.png".toList ++ extractedSuffix, noCsvError, sourceImage⟩)], 2⟩,
        .ok ⟨1, "pic.png".toList ++ extractedSuffix, sourceImage⟩) := by
  refine ⟨by decide, by decide, ?_⟩
  rfl

/-- C2: round-trip — for every byte buffer that decodes as valid CSV
text `t`, ingesting it via `upload_csv` and then fetching the new
record's content by the returned id yields exactly `t`. -/
theorem c2_csv_roundtrip (st : Storage) (f : List Char) (b : List Nat) (t : List Char)
    (hwf : wfStorage st) (hd : utf8Decode b = some t) (hv : csvValidate t = true) :
    ∃ resp : CSVResponse, (upload_csv st f b).2 = .ok resp ∧
      resp.source_type = sourceDirect ∧
      get_csv_content (upload_csv st f b).1 resp.id = .ok t := by
  refine ⟨⟨st.next_id, f, sourceDirect⟩, ?_, rfl, ?_⟩
  · rw [upload_csv_ok st f b t hwf hd hv]
  · rw [upload_csv_ok st f b t hwf hd hv]
    exact get_csv_content_of_lookup
      ⟨st.csv_storage ++ [(st.next_id, ⟨st.next_id, f, t, sourceDirect⟩)], st.next_id + 1⟩
      st.next_id ⟨st.next_id, f, t, sourceDirect⟩
      (dictLookup_append_self _ _ _ hwf)

/-- Bytes of the spec's concrete scenario "name,age\nAlice,30\n". -/
def demoBytes : List Nat :=
  [110, 97, 109, 101, 44, 97, 103, 101, 10, 65, 108, 105, 99, 101, 44, 51, 48, 10]

/-- Witness for C2 at the spec's concrete scenario. -/
theorem c2_csv_roundtrip_witness :
    ∃ resp : CSVResponse,
      (upload_csv initStorage ("people.csv".toList) demoBytes).2 = .ok resp ∧
      resp.source_type = sourceDirect ∧
      get_csv_content (upload_csv initStorage ("people.csv".toList) demoBytes).1 resp.id =
        .ok ("name,age\nAlice,30\n".toList) :=
  c2_csv_roundtrip initStorage ("people.csv".toList) demoBytes
    ("name,age\nAlice,30\n".toList) wfStorage_init (by decide) (by decide)

/-- C3: for a completion that wraps a payload in a triple-backtick
fence, the cleanup step splits on the fence markers and takes the
first part lacking the substring "csv" but containing a comma and a
newline, stripped of surrounding whitespace: with a backtick-free
payload the two fence parts are empty (hence skipped, having no comma)
and the payload itself is selected. -/
theorem c3_fenced_cleanup (body : List Char) (hb : btick ∉ body)
    (hcsv : pyContains body ("csv".toList) = false)
    (hc : ',' ∈ body) (hn : '\n' ∈ body) :
    cleanupContent (fence ++ body ++ fence) = pyStrip body := by
  unfold cleanupContent
  have hfence : pyContains (fence ++ body ++ fence) fence = true := by
    have h := pyContains_of_prefix fence (body ++ fence)
    simpa [List.append_assoc] using h
  rw [if_pos hfence, splitFence_wrapped body hb]
  have hgood : goodPart body = true := by
    unfold goodPart
    rw [hcsv, (pyContains_singleton body ',').2 hc, (pyContains_singleton body '\n').2 hn]
    rfl
  have hbad : ¬ (goodPart ([] : List Char) = true) := by decide
  have h1 : List.find? goodPart [[], body, []] = List.find? goodPart [body, []] :=
    List.find?_cons_of_neg _ hbad
  have h2 : List.find? goodPart [body, []] = some body :=
    List.find?_cons_of_pos _ hgood
  rw [h1, h2]

/-- Witness for C3: a fenced block wrapping "a,b\n1,2" cleans up to
exactly "a,b\n1,2" (the spec's concrete example). -/
theorem c3_fenced_cleanup_witness :
    cleanupContent (fence ++ "\na,b\n1,2\n".toList ++ fence) = "a,b\n1,2".toList := by
  have h := c3_fenced_cleanup ("\na,b\n1,2\n".toList) (by decide) (by decide)
    (by decide) (by decide)
  rw [h]
  decide

/-- C4: a byte buffer that does not decode as UTF-8 text makes
`upload_csv` yield a 400 client error, leave the storage state
unchanged and hence leave the result of a subsequent list unchanged. -/
theorem c4_undecodable_rejected (st : Storage) (f : List Char) (b : List Nat)
    (hd : utf8Decode b = none) :
    upload_csv st f b = (st, .error ⟨400, invalidCsvDetail⟩) ∧
    list_all_csvs (upload_csv st f b).1 = list_all_csvs st := by
  have h := upload_csv_bad_decode st f b hd
  exact ⟨h, by rw [h]⟩

/-- Witness for C4 at the lone byte 0xFF, which is not valid UTF-8. -/
theorem c4_undecodable_rejected_witness :
    upload_csv initStorage ("data.csv".toList) [255] =
      (initStorage, .error ⟨400, invalidCsvDetail⟩) ∧
    list_all_csvs (upload_csv initStorage ("data.csv".toList) [255]).1 =
      list_all_csvs initStorage :=
  c4_undecodable_rejected initStorage ("data.csv".toList) [255] (by decide)

/-- C5: `process_image_bytes` never propagates an exception — in the
model it is a total function into strings.  Every transport/API
failure is converted into the error-marked string `"Error: " ++ msg`,
and when the cleaned-up completion has no comma (in particular when it
is empty) the call returns the fixed error-marked string instead of
raising. -/
theorem c5_extraction_no_exception (msg completion : List Char) :
    process_image_bytes (.failure msg) = errPre ++ msg ∧
    (pyContains (cleanupContent completion) [','] = false →
      process_image_bytes (.success completion) = noCsvError) := by
  constructor
  · rfl
  · intro h
    show (if (cleanupContent completion).isEmpty
          || !(pyContains (cleanupContent completion) [',']) then noCsvError
        else cleanupContent completion) = noCsvError
    rw [h]
    simp

/-- Witness for C5: a concrete transport failure and a concrete
comma-free completion. -/
theorem c5_extraction_no_exception_witness :
    process_image_bytes (.failure ("boom".toList)) = errPre ++ "boom".toList ∧
    process_image_bytes (.success ("no data".toList)) = noCsvError :=
  ⟨(c5_extraction_no_exception ("boom".toList) ("no data".toList)).1,
   (c5_extraction_no_exception ("boom".toList) ("no data".toList)).2 (by decide)⟩

/-- C6: in the volatile storage mode, starting from the initial state
(counter seeded at 1), a run of `n` successful `upload_csv` requests
yields records with ids 1..n in creation order: listing returns one
entry per record, the ids are `[1, ..., n]` (hence unique), the
filenames match the uploads in order, and every `source_type` is
`direct_upload`. -/
theorem c6_sequential_ids (inputs : List (List Char × List Nat))
    (h : ∀ x ∈ inputs, validInput x) :
    (list_all_csvs (uploadMany initStorage inputs)).map (fun r => r.id) =
      List.range' 1 inputs.length ∧
    ((list_all_csvs (uploadMany initStorage inputs)).map (fun r => r.id)).Nodup ∧
    (list_all_csvs (uploadMany initStorage inputs)).map (fun r => r.filename) =
      inputs.map (fun x => x.1) ∧
    ∀ r ∈ list_all_csvs (uploadMany initStorage inputs), r.source_type = sourceDirect := by
  obtain ⟨h1, -⟩ := uploadMany_spec inputs initStorage wfStorage_init h
  have hst : (uploadMany initStorage inputs).csv_storage = mkRecords 1 inputs := by
    simpa [initStorage] using h1
  refine ⟨?_, ?_, ?_, ?_⟩
  · rw [list_all_ids, hst, mkRecords_ids inputs 1]
  · rw [list_all_ids, hst, mkRecords_ids inputs 1]
    exact List.nodup_range' 1 inputs.length
  · rw [list_all_filenames, hst, mkRecords_filenames inputs 1]
  · intro r hr
    unfold list_all_csvs at hr
    obtain ⟨p, hp, hpr⟩ := List.mem_map.1 hr
    rw [hst] at hp
    rw [← hpr]
    exact mkRecords_source inputs 1 p hp

/-- Two concrete uploads: "x" and "y,z". -/
def demoInputs : List (List Char × List Nat) :=
  [("a.csv".toList, [120]), ("b.csv".toList, [121, 44, 122])]

/-- Witness for C6 at two concrete uploads. -/
theorem c6_sequential_ids_witness :
    (list_all_csvs (uploadMany initStorage demoInputs)).map (fun r => r.id) =
      List.range' 1 demoInputs.length ∧
    ((list_all_csvs (uploadMany initStorage demoInputs)).map (fun r => r.id)).Nodup ∧
    (list_all_csvs (uploadMany initStorage demoInputs)).map (fun r => r.filename) =
      demoInputs.map (fun x => x.1) ∧
    ∀ r ∈ list_all_csvs (uploadMany initStorage demoInputs), r.source_type = sourceDirect :=
  c6_sequential_ids demoInputs (by decide)

/-- C7: for an id not present in storage, both read endpoints return
the 404 not-found error — never a server error.  (The reads are pure
functions of the state, so a failed read cannot change storage.) -/
theorem c7_missing_id_not_found (st : Storage) (csv_id : Nat)
    (h : dictLookup st.csv_storage csv_id = none) :
    get_csv_info st csv_id = .error ⟨404, notFoundDetail⟩ ∧
    get_csv_content st csv_id = .error ⟨404, notFoundDetail⟩ := by
  constructor
  · unfold get_csv_info
    rw [h]
  · unfold get_csv_content
    rw [h]

/-- Witness for C7: id 7 on the empty store. -/
theorem c7_missing_id_not_found_witness :
    get_csv_info initStorage 7 = .error ⟨404, notFoundDetail⟩ ∧
    get_csv_content initStorage 7 = .error ⟨404, notFoundDetail⟩ :=
  c7_missing_id_not_found initStorage 7 rfl

/-- C8: without the `GROQ_API_KEY` (absent, or present but empty — both
falsy in the code), `GroqClient` construction fails with the
configuration `ValueError`, and consequently every image-ingest
request fails (the handler constructs the client per request, the
error is caught and mapped to a 500) without creating any record. -/
theorem c8_missing_key_fatal (env_key : Option (List Char))
    (h : env_key = none ∨ env_key = some []) :
    groqClientInit env_key = .error keyErrorMsg ∧
    ∀ (st : Storage) (f : List Char) (outcome : ApiOutcome),
      upload_image st f env_key outcome = (st, .error ⟨500, processingErrorDetail⟩) := by
  have hg : groqClientInit env_key = .error keyErrorMsg := by
    rcases h with rfl | rfl
    · rfl
    · rfl
  refine ⟨hg, ?_⟩
  intro st f outcome
  unfold upload_image
  rw [hg]

/-- Witness for C8: no key in the environment, a request whose
extraction would have produced perfectly good CSV. -/
theorem c8_missing_key_fatal_witness :
    groqClientInit none = .error keyErrorMsg ∧
    upload_image initStorage ("img.png".toList) none (.success ("a,b\n1,2".toList)) =
      (initStorage, .error ⟨500, processingErrorDetail⟩) :=
  ⟨(c8_missing_key_fatal none (Or.inl rfl)).1,
   (c8_missing_key_fatal none (Or.inl rfl)).2 initStorage ("img.png".toList)
     (.success ("a,b\n1,2".toList))⟩

/-- C9: whatever the outbound call does, the string returned by
`process_image_bytes` either begins with the literal prefix "Error:"
or contains at least one comma; in particular a non-error-marked
return value always contains a comma. -/
theorem c9_error_marker_or_comma (outcome : ApiOutcome) :
    errMarker.isPrefixOf (process_image_bytes outcome) = true ∨
    pyContains (process_image_bytes outcome) [','] = true := by
  cases outcome with
  | failure msg =>
    left
    show errMarker.isPrefixOf (errPre ++ msg) = true
    have he : errPre = errMarker ++ [' '] := by decide
    rw [he, List.append_assoc, List.isPrefixOf_iff_prefix]
    exact List.prefix_append _ _
  | success completion =>
    cases hb : ((cleanupContent completion).isEmpty
        || !(pyContains (cleanupContent completion) [','])) with
    | true =>
      left
      have hres : process_image_bytes (.success completion) = noCsvError := by
        show (if (cleanupContent completion).isEmpty
              || !(pyContains (cleanupContent completion) [',']) then noCsvError
            else cleanupContent completion) = noCsvError
        rw [hb]
        rfl
      rw [hres]
      decide
    | false =>
      right
      have hres : process_image_bytes (.success completion) = cleanupContent completion := by
        show (if (cleanupContent completion).isEmpty
              || !(pyContains (cleanupContent completion) [',']) then noCsvError
            else cleanupContent completion) = cleanupContent completion
        rw [hb]
        rfl
      rw [hres]
      have h2 := hb
      simp only [Bool.or_eq_false_iff, Bool.not_eq_false'] at h2
      exact h2.2

/-- C10: a zero-byte upload is accepted by `upload_csv`: the empty
buffer decodes to the empty string, the `csv` reader accepts it, and a
record with empty content and `source_type = "direct_upload"` is
created under the fresh id `next_id` (fresh: it is not yet a key of
the store). -/
theorem c10_empty_upload_accepted (st : Storage) (f : List Char) (hwf : wfStorage st) :
    (upload_csv st f []).2 = .ok ⟨st.next_id, f, sourceDirect⟩ ∧
    (upload_csv st f []).1.csv_storage =
      st.csv_storage ++ [(st.next_id, ⟨st.next_id, f, [], sourceDirect⟩)] ∧
    dictLookup st.csv_storage st.next_id = none := by
  have h := upload_csv_ok st f [] [] hwf rfl (by decide)
  refine ⟨?_, ?_, dictLookup_none _ _ hwf⟩
  · rw [h]
  · rw [h]

/-- Witness for C10: a zero-byte upload against the initial store. -/
theorem c10_empty_upload_accepted_witness :
    (upload_csv initStorage ("empty.csv".toList) []).2 =
      .ok ⟨initStorage.next_id, "empty.csv".toList, sourceDirect⟩ ∧
    (upload_csv initStorage ("empty.csv".toList) []).1.csv_storage =
      initStorage.csv_storage ++
        [(initStorage.next_id,
          ⟨initStorage.next_id, "empty.csv".toList, [], sourceDirect⟩)] ∧
    dictLookup initStorage.csv_storage initStorage.next_id = none :=
  c10_empty_upload_accepted initStorage ("empty.csv".toList) wfStorage_init
